import Mathlib

/-!
Verification of the in-process streaming pipeline engine
(`pkg/stream`: pipeline.go, source/channel.go, source/http.go,
source/cron.go, sink/http.go) as a shallow embedding in Lean 4.

Modelling conventions:
* Go errors are strings; `fmt.Errorf("m: %w", e)` becomes `"m: " ++ e`.
* A Go `map[string]string` is `Option (List (String × String))`: `none`
  is the nil map, `some l` a non-nil (possibly empty) map.
* A Go channel is a `Chan`: its capacity (the argument of `make`) and the
  ordered list of values sent on it before it is closed.
* Goroutine loops are embedded as their no-cancellation executions
  (`ctx.Done()` never ready), which is the regime the claims quantify over;
  where a claim is about the race in `Pipeline.Run`, the first-arriving
  terminal signal is an explicit input of the embedding.
-/

namespace StreamPipe

/-- Go `error` values, modelled by their message string. -/
abbrev Err := String

/-- A Go channel: the capacity it was made with and the ordered sequence of
values sent on it before close. -/
structure Chan (T : Type) where
  cap : Nat
  msgs : List T
deriving DecidableEq

/-- Message envelope from pipeline.go: `Key`, `Value`, `Timestamp`,
`Metadata` (a nil-able Go map). -/
structure Message (T : Type) where
  Key : String
  Value : T
  Timestamp : Int
  Metadata : Option (List (String × String))
deriving DecidableEq

/-- Body of the forwarding loop in `MapOperator.Process` (pipeline.go
lines 160-175) with cancellation never fired: each received message is
forwarded with `Value` replaced by `fn Value`. -/
def mapLoop {T : Type} (fn : T → T) : List (Message T) → List (Message T)
  | [] => []
  | m :: rest => { m with Value := fn m.Value } :: mapLoop fn rest

/-- `MapOperator.Process` (pipeline.go lines 157-178): makes an outgoing
channel of capacity 100 (hardcoded in `make(chan Message[T], 100)`),
spawns the forwarding loop, and returns with a nil error. -/
def MapOperator.Process {T : Type} (fn : T → T) (inp : Chan (Message T)) :
    Chan (Message T) :=
  { cap := 100, msgs := mapLoop fn inp.msgs }

/-- Body of the forwarding loop in `FilterOperator.Process` (pipeline.go
lines 189-205) with cancellation never fired: a message is forwarded
unchanged iff `fn Value` holds. -/
def filterLoop {T : Type} (fn : T → Bool) : List (Message T) → List (Message T)
  | [] => []
  | m :: rest =>
    if fn m.Value then m :: filterLoop fn rest else filterLoop fn rest

/-- `FilterOperator.Process` (pipeline.go lines 186-208): outgoing channel
capacity hardcoded to 100, predicate filtering, nil error. -/
def FilterOperator.Process {T : Type} (fn : T → Bool) (inp : Chan (Message T)) :
    Chan (Message T) :=
  { cap := 100, msgs := filterLoop fn inp.msgs }

/-- An attached operator of a pipeline: `Map` appends a `MapOperator`,
`Filter` a `FilterOperator` (pipeline.go lines 40-49). -/
inductive Oper (T : Type) where
  | map (fn : T → T)
  | filter (fn : T → Bool)

/-- Dispatch of `op.Process` in the operator loop of `Pipeline.Run`. -/
def Oper.process {T : Type} : Oper T → Chan (Message T) → Chan (Message T)
  | .map fn => MapOperator.Process fn
  | .filter fn => FilterOperator.Process fn

/-- Pipeline struct (pipeline.go lines 12-19): name, operator chain, sink
presence (Go: `sink Sink[T]`, nil until `To` is called), buffer-capacity
setting. The bounded error channel (capacity 10) is modelled at `Run`. -/
structure Pipeline (T : Type) where
  name : String
  operators : List (Oper T)
  sinkAttached : Bool
  bufferCap : Nat

/-- `New` (pipeline.go lines 22-30): empty operator list, no sink yet,
`bufferCap` 100. -/
def Pipeline.New {T : Type} (name : String) : Pipeline T :=
  { name := name, operators := [], sinkAttached := false, bufferCap := 100 }

/-- `WithBufferSize` (pipeline.go lines 33-36): stores `size` in the
`bufferCap` field. -/
def Pipeline.WithBufferSize {T : Type} (p : Pipeline T) (size : Nat) : Pipeline T :=
  { p with bufferCap := size }

/-- `Map` (pipeline.go lines 40-43): appends a map operator. -/
def Pipeline.Map {T : Type} (p : Pipeline T) (fn : T → T) : Pipeline T :=
  { p with operators := p.operators ++ [Oper.map fn] }

/-- `Filter` (pipeline.go lines 46-49): appends a filter operator. -/
def Pipeline.Filter {T : Type} (p : Pipeline T) (fn : T → Bool) : Pipeline T :=
  { p with operators := p.operators ++ [Oper.filter fn] }

/-- `To` (pipeline.go lines 52-55): attaches the sink. -/
def Pipeline.To {T : Type} (p : Pipeline T) : Pipeline T :=
  { p with sinkAttached := true }

/-- The operator-folding loop of `Pipeline.Run` (pipeline.go lines 72-81):
the source channel is threaded left-to-right through each operator's
`Process`, yielding the terminal channel read by the sink consumer. -/
def Pipeline.terminalChan {T : Type} (p : Pipeline T) (sourceChan : Chan (Message T)) :
    Chan (Message T) :=
  p.operators.foldl (fun cur op => op.process cur) sourceChan

/-- The sink consumer goroutine of `Pipeline.Run` (pipeline.go lines
87-98) with cancellation never fired: `Write` is called once per terminal
message in order; each failure is wrapped as `sink write: _` and sent to
the error channel, and the loop continues. Returns the messages written
and the errors queued, both in order. -/
def sinkConsume {T : Type} (write : Message T → Option Err) :
    List (Message T) → List (Message T) × List Err
  | [] => ([], [])
  | m :: rest =>
    let r := sinkConsume write rest
    match write m with
    | some e => (m :: r.1, (("sink write: " : String) ++ e) :: r.2)
    | none => (m :: r.1, r.2)

/-- `ChannelSource.Stream` (source/channel.go lines 21-49) with
cancellation never fired: an outgoing channel of capacity 100 carrying one
envelope per feed value, with only `Value` and `Metadata` set (Go zero
values for `Key` and `Timestamp`, metadata `make(map[string]string)`). -/
def ChannelSource.Stream {T : Type} (feed : List T) : Chan (Message T) :=
  { cap := 100
    msgs := feed.map fun v =>
      { Key := "", Value := v, Timestamp := 0, Metadata := some [] } }

/-- The first-arriving terminal signal in the final `select` of
`Pipeline.Run` (pipeline.go lines 107-120): completion (`done` closed),
context cancellation (with `ctx.Err()` as reason), or the error channel
becoming readable. Which arrives first is a scheduler choice, so it is an
input of the embedding. -/
inductive Signal where
  | done
  | ctxDone (reason : Err)
  | errRecv
deriving DecidableEq

/-- Resource-release calls the driver can make. -/
inductive CloseAction where
  | closeSink
  | closeSource
deriving DecidableEq

/-- Observable outcome of one `Pipeline.Run` invocation: the returned
error (`none` = nil), the `Close` calls made in order, whether
`source.Stream` was invoked, and how many operator `Process` calls ran. -/
structure RunTrace where
  result : Option Err
  closes : List CloseAction
  sourceStarted : Bool
  operatorsStarted : Nat
deriving DecidableEq

/-- Control path of `Pipeline.Run` (pipeline.go lines 60-121).
Guard: nil sink fails with `sink is required` before anything starts.
Then `source.Stream` runs (its error, if any, is wrapped `start source:`);
the operator fold never fails since both shipped `Process` methods return
a nil error. The final `select` commits to the first-arriving signal:
on `done` the sink is closed, then (only if that succeeded) the source,
returning the first close failure or nil; on cancellation `ctx.Err()` is
returned with no closes; on an error-channel receive the oldest queued
error is returned with no closes. `errQueue` is the FIFO content of the
capacity-10 error channel at that moment. -/
def Pipeline.Run {T : Type} (p : Pipeline T) (sourceErr : Option Err)
    (errQueue : List Err) (sig : Signal)
    (sinkCloseErr sourceCloseErr : Option Err) : RunTrace :=
  if p.sinkAttached = false then
    { result := some "sink is required", closes := [],
      sourceStarted := false, operatorsStarted := 0 }
  else
    match sourceErr with
    | some e =>
      { result := some (("start source: " : String) ++ e), closes := [],
        sourceStarted := true, operatorsStarted := 0 }
    | none =>
      match sig with
      | .done =>
        match sinkCloseErr with
        | some e =>
          { result := some (("close sink: " : String) ++ e),
            closes := [CloseAction.closeSink],
            sourceStarted := true, operatorsStarted := p.operators.length }
        | none =>
          match sourceCloseErr with
          | some e =>
            { result := some (("close source: " : String) ++ e),
              closes := [CloseAction.closeSink, CloseAction.closeSource],
              sourceStarted := true, operatorsStarted := p.operators.length }
          | none =>
            { result := none,
              closes := [CloseAction.closeSink, CloseAction.closeSource],
              sourceStarted := true, operatorsStarted := p.operators.length }
      | .ctxDone reason =>
        { result := some reason, closes := [],
          sourceStarted := true, operatorsStarted := p.operators.length }
      | .errRecv =>
        { result := errQueue.head?, closes := [],
          sourceStarted := true, operatorsStarted := p.operators.length }

/-- Outcome of starting a source's `Stream`: the returned error, whether a
producer goroutine was spawned, and the envelopes that producer emits
(empty when nothing was spawned). -/
structure StreamStart (T : Type) where
  err : Option Err
  spawned : Bool
  out : List (Message T)
deriving DecidableEq

/-- Envelope built in the tick branch of the producer loop of
`CronSource.Stream` (source/cron.go lines 44-50): key `cron-<unix time>`,
freshly generated value, tick timestamp, empty non-nil metadata. -/
def CronSource.tickMessage {T : Type} (generator : Unit → T) (now : Int) :
    Message T :=
  { Key := ("cron-" : String) ++ toString now, Value := generator (),
    Timestamp := now, Metadata := some [] }

/-- `CronSource.Stream` (source/cron.go lines 29-61): a non-positive
interval fails with `interval must be positive` before any goroutine is
spawned; otherwise one producer is spawned which (cancellation never
fired) emits one `tickMessage` per tick, in tick order. -/
def CronSource.Stream {T : Type} (interval : Int) (generator : Unit → T)
    (ticks : List Int) : StreamStart T :=
  if interval ≤ 0 then
    { err := some "interval must be positive", spawned := false, out := [] }
  else
    { err := none, spawned := true,
      out := ticks.map (CronSource.tickMessage generator) }

/-- What one HTTP poll attempt observed, when the GET produced a response:
its status code and the value parsed from its body (`none` for a body-read
or parse failure). A `none` response altogether is a request-construction
or network error. -/
structure PollResponse (T : Type) where
  status : Int
  parsed : Option T
deriving DecidableEq

/-- `HTTPSource.poll` (source/http.go lines 77-118) with cancellation
never fired: every failure class (request construction, network, non-200
status, body read, parse) silently emits nothing; on success it emits an
envelope keyed by the URL with metadata source/url/status. -/
def HTTPSource.poll {T : Type} (url : String) (now : Int)
    (resp : Option (PollResponse T)) : Option (Message T) :=
  match resp with
  | none => none
  | some r =>
    if r.status ≠ 200 then none
    else
      match r.parsed with
      | none => none
      | some v =>
        some { Key := url, Value := v, Timestamp := now
               Metadata := some [("source", "http"), ("url", url),
                                 ("status", toString r.status)] }

/-- `HTTPSource.Stream` (source/http.go lines 52-75): makes the channel
(capacity 10), spawns the polling goroutine, and returns a nil error —
with no validation of the configured interval whatsoever. The goroutine
performs one poll per entry of `polls` (the immediate one, then one per
tick), emitting only the successful ones in order. -/
def HTTPSource.Stream {T : Type} (interval : Int) (url : String)
    (polls : List (Int × Option (PollResponse T))) : StreamStart T :=
  { err := none, spawned := true,
    out := polls.filterMap fun a => HTTPSource.poll url a.1 a.2 }

/-! Helper lemmas about the operator loops and the sink consumer. -/

theorem mapLoop_map_Key {T : Type} (fn : T → T) (l : List (Message T)) :
    (mapLoop fn l).map Message.Key = l.map Message.Key := by
  induction l with
  | nil => rfl
  | cons m rest ih => simp [mapLoop, ih]

theorem mapLoop_map_Timestamp {T : Type} (fn : T → T) (l : List (Message T)) :
    (mapLoop fn l).map Message.Timestamp = l.map Message.Timestamp := by
  induction l with
  | nil => rfl
  | cons m rest ih => simp [mapLoop, ih]

theorem mapLoop_map_Metadata {T : Type} (fn : T → T) (l : List (Message T)) :
    (mapLoop fn l).map Message.Metadata = l.map Message.Metadata := by
  induction l with
  | nil => rfl
  | cons m rest ih => simp [mapLoop, ih]

theorem mapLoop_map_Value {T : Type} (fn : T → T) (l : List (Message T)) :
    (mapLoop fn l).map Message.Value = (l.map Message.Value).map fn := by
  induction l with
  | nil => rfl
  | cons m rest ih => simp [mapLoop, ih]

theorem mapLoop_length {T : Type} (fn : T → T) (l : List (Message T)) :
    (mapLoop fn l).length = l.length := by
  induction l with
  | nil => rfl
  | cons m rest ih => simp [mapLoop, ih]

theorem filterLoop_eq_filter {T : Type} (fn : T → Bool) (l : List (Message T)) :
    filterLoop fn l = l.filter (fun m => fn m.Value) := by
  induction l with
  | nil => rfl
  | cons m rest ih =>
    by_cases h : fn m.Value <;> simp [filterLoop, h, ih, List.filter_cons]

theorem sinkConsume_no_failure {T : Type} (l : List (Message T)) :
    sinkConsume (fun _ => none) l = (l, []) := by
  induction l with
  | nil => rfl
  | cons m rest ih => simp [sinkConsume, ih]

theorem filter_channel_values {T : Type} (p : T → Bool) (feed : List T) :
    (List.filter (fun m => p m.Value)
        (feed.map fun v =>
          ({ Key := "", Value := v, Timestamp := 0, Metadata := some [] } :
            Message T))).map Message.Value
      = feed.filter p := by
  induction feed with
  | nil => rfl
  | cons v rest ih =>
    by_cases h : p v <;> simp [List.filter_cons, h, ih]

/-- C1: for a finite, eventually-closed feed and the pipeline
`Filter(p) → Map(f)` (no cancellation, never-failing sink), the sink
receives exactly `map f (filter p feed)` in the feed's relative order,
and no sink error is ever queued. -/
theorem c1_filter_map_pipeline {T : Type} (p : T → Bool) (f : T → T)
    (name : String) (feed : List T) :
    (sinkConsume (fun _ => none)
        ((((Pipeline.New name).Filter p).Map f).To.terminalChan
          (ChannelSource.Stream feed)).msgs).1.map Message.Value
      = (feed.filter p).map f
    ∧ (sinkConsume (fun _ => none)
        ((((Pipeline.New name).Filter p).Map f).To.terminalChan
          (ChannelSource.Stream feed)).msgs).2 = [] := by
  have hterm : (((Pipeline.New name).Filter p).Map f).To.terminalChan
      (ChannelSource.Stream feed)
      = MapOperator.Process f (FilterOperator.Process p (ChannelSource.Stream feed)) := by
    simp [Pipeline.New, Pipeline.Filter, Pipeline.Map, Pipeline.To,
      Pipeline.terminalChan, Oper.process]
  rw [hterm, sinkConsume_no_failure]
  refine ⟨?_, rfl⟩
  simp only [MapOperator.Process, FilterOperator.Process, ChannelSource.Stream]
  rw [mapLoop_map_Value, filterLoop_eq_filter, filter_channel_values]

/-- C7: the map operator replaces only `Value` (with `fn Value`): `Key`,
`Timestamp` and `Metadata` pass through unchanged, and exactly one output
envelope is produced per input envelope (no cancellation). -/
theorem c7_map_frame {T : Type} (fn : T → T) (inp : Chan (Message T)) :
    (MapOperator.Process fn inp).msgs.map Message.Key = inp.msgs.map Message.Key
    ∧ (MapOperator.Process fn inp).msgs.map Message.Timestamp
        = inp.msgs.map Message.Timestamp
    ∧ (MapOperator.Process fn inp).msgs.map Message.Metadata
        = inp.msgs.map Message.Metadata
    ∧ (MapOperator.Process fn inp).msgs.map Message.Value
        = (inp.msgs.map Message.Value).map fn
    ∧ (MapOperator.Process fn inp).msgs.length = inp.msgs.length := by
  exact ⟨mapLoop_map_Key fn inp.msgs, mapLoop_map_Timestamp fn inp.msgs,
    mapLoop_map_Metadata fn inp.msgs, mapLoop_map_Value fn inp.msgs,
    mapLoop_length fn inp.msgs⟩

/-- C10: every envelope emitted by the channel-adapter source has an empty
key, a zero timestamp (ingestion time is not recorded), and a non-nil
empty metadata map. -/
theorem c10_channel_source_fields {T : Type} (feed : List T) (m : Message T)
    (h : m ∈ (ChannelSource.Stream feed).msgs) :
    m.Key = "" ∧ m.Timestamp = 0 ∧ m.Metadata = some [] := by
  simp only [ChannelSource.Stream, List.mem_map] at h
  obtain ⟨v, _, rfl⟩ := h
  exact ⟨rfl, rfl, rfl⟩

/-- Witness for C10 at a concrete feed and envelope. -/
theorem c10_channel_source_fields_witness :
    ({ Key := "", Value := (7 : Int), Timestamp := 0, Metadata := some [] } :
        Message Int).Key = ""
    ∧ ({ Key := "", Value := (7 : Int), Timestamp := 0, Metadata := some [] } :
        Message Int).Timestamp = 0
    ∧ ({ Key := "", Value := (7 : Int), Timestamp := 0, Metadata := some [] } :
        Message Int).Metadata = some [] :=
  c10_channel_source_fields [7]
    { Key := "", Value := (7 : Int), Timestamp := 0, Metadata := some [] }
    (by simp [ChannelSource.Stream])

/-- C2: when some sink `Write` fails and the resulting error-channel
receive is the first terminal signal (before completion or cancellation),
`Run` returns the first queued sink error and performs no `Close` call on
either the sink or the source. -/
theorem c2_sink_error_path {T : Type} (p : Pipeline T)
    (write : Message T → Option Err) (msgs : List (Message T)) (e : Err)
    (es : List Err) (sinkCloseErr sourceCloseErr : Option Err)
    (hsink : p.sinkAttached = true)
    (hq : (sinkConsume write msgs).2 = e :: es) :
    (p.Run none ((sinkConsume write msgs).2) Signal.errRecv
        sinkCloseErr sourceCloseErr).result = some e
    ∧ (p.Run none ((sinkConsume write msgs).2) Signal.errRecv
        sinkCloseErr sourceCloseErr).closes = [] := by
  rw [hq]
  simp [Pipeline.Run, hsink]

/-- Witness for C2: a one-message run whose only write fails with `boom`;
`Run` returns `sink write: boom` and closes nothing. -/
theorem c2_sink_error_path_witness :
    ((Pipeline.New (T := Int) "w").To.Run none
        ((sinkConsume (fun _ => some "boom")
          [{ Key := "", Value := (1 : Int), Timestamp := 0, Metadata := some [] }]).2)
        Signal.errRecv none none).result = some "sink write: boom"
    ∧ ((Pipeline.New (T := Int) "w").To.Run none
        ((sinkConsume (fun _ => some "boom")
          [{ Key := "", Value := (1 : Int), Timestamp := 0, Metadata := some [] }]).2)
        Signal.errRecv none none).closes = [] :=
  c2_sink_error_path ((Pipeline.New (T := Int) "w").To) (fun _ => some "boom")
    [{ Key := "", Value := (1 : Int), Timestamp := 0, Metadata := some [] }]
    "sink write: boom" [] none none rfl rfl

/-- C3: on normal completion (`done` wins the select) with both `Close`
hooks succeeding — as every shipped source and sink `Close` does — `Run`
closes the sink first, then the source, and returns nil. -/
theorem c3_completion_path {T : Type} (p : Pipeline T) (errQueue : List Err)
    (hsink : p.sinkAttached = true) :
    (p.Run none errQueue Signal.done none none).result = none
    ∧ (p.Run none errQueue Signal.done none none).closes
        = [CloseAction.closeSink, CloseAction.closeSource] := by
  simp [Pipeline.Run, hsink]

/-- Witness for C3 on a concrete completed run. -/
theorem c3_completion_path_witness :
    ((Pipeline.New (T := Int) "w").To.Run none [] Signal.done none none).result = none
    ∧ ((Pipeline.New (T := Int) "w").To.Run none [] Signal.done none none).closes
        = [CloseAction.closeSink, CloseAction.closeSource] :=
  c3_completion_path ((Pipeline.New (T := Int) "w").To) [] rfl

/-- C4: with no sink attached, `Run` fails immediately with the
configuration error `sink is required`, does not invoke `source.Stream`,
starts no operator stage, and closes nothing. -/
theorem c4_missing_sink {T : Type} (p : Pipeline T) (sourceErr : Option Err)
    (errQueue : List Err) (sig : Signal)
    (sinkCloseErr sourceCloseErr : Option Err)
    (hsink : p.sinkAttached = false) :
    (p.Run sourceErr errQueue sig sinkCloseErr sourceCloseErr).result
        = some "sink is required"
    ∧ (p.Run sourceErr errQueue sig sinkCloseErr sourceCloseErr).sourceStarted = false
    ∧ (p.Run sourceErr errQueue sig sinkCloseErr sourceCloseErr).operatorsStarted = 0
    ∧ (p.Run sourceErr errQueue sig sinkCloseErr sourceCloseErr).closes = [] := by
  simp [Pipeline.Run, hsink]

/-- Witness for C4: a freshly built pipeline with a map stage but no `To`
call fails with the configuration error before starting anything. -/
theorem c4_missing_sink_witness :
    (((Pipeline.New (T := Int) "w").Map (fun n => n + 1)).Run none [] Signal.done
        none none).result = some "sink is required"
    ∧ (((Pipeline.New (T := Int) "w").Map (fun n => n + 1)).Run none [] Signal.done
        none none).sourceStarted = false
    ∧ (((Pipeline.New (T := Int) "w").Map (fun n => n + 1)).Run none [] Signal.done
        none none).operatorsStarted = 0
    ∧ (((Pipeline.New (T := Int) "w").Map (fun n => n + 1)).Run none [] Signal.done
        none none).closes = [] :=
  c4_missing_sink ((Pipeline.New (T := Int) "w").Map (fun n => n + 1))
    none [] Signal.done none none rfl

/-- C5 counterexample: the HTTP poll source configured with interval 0
does not behave as the claim states — its `Stream` returns a nil error
and spawns its producer goroutine regardless of the interval (the
interval is never validated; `time.NewTicker` inside the goroutine would
panic instead). -/
theorem c5_http_no_validation_counterexample :
    ¬((HTTPSource.Stream (T := Int) 0 "http://u" []).err.isSome = true
      ∧ (HTTPSource.Stream (T := Int) 0 "http://u" []).spawned = false) := by
  intro h
  exact absurd h.1 (by simp [HTTPSource.Stream])

/-- C5 amended: only the timer source validates its interval — a
non-positive interval makes `CronSource.Stream` return an error
immediately, spawning no producer and emitting nothing — while
`HTTPSource.Stream` performs no interval validation at all: it returns a
nil error and spawns its producer for every interval. -/
theorem c5_interval_validation {T : Type} (interval : Int)
    (generator : Unit → T) (ticks : List Int) (url : String)
    (polls : List (Int × Option (PollResponse T)))
    (h : interval ≤ 0) :
    (CronSource.Stream interval generator ticks).err
        = some "interval must be positive"
    ∧ (CronSource.Stream interval generator ticks).spawned = false
    ∧ (CronSource.Stream interval generator ticks).out = []
    ∧ (HTTPSource.Stream interval url polls).err = none
    ∧ (HTTPSource.Stream interval url polls).spawned = true := by
  simp [CronSource.Stream, HTTPSource.Stream, if_pos h]

/-- Witness for the amended C5 at interval 0. -/
theorem c5_interval_validation_witness :
    (CronSource.Stream (T := Int) 0 (fun _ => 3) [5]).err
        = some "interval must be positive"
    ∧ (CronSource.Stream (T := Int) 0 (fun _ => 3) [5]).spawned = false
    ∧ (CronSource.Stream (T := Int) 0 (fun _ => 3) [5]).out = []
    ∧ (HTTPSource.Stream (T := Int) 0 "http://u" []).err = none
    ∧ (HTTPSource.Stream (T := Int) 0 "http://u" []).spawned = true :=
  c5_interval_validation 0 (fun _ => 3) [5] "http://u" [] (by decide)

/-- C6 (code bug): `WithBufferSize 5` does set the pipeline's
`bufferCap` field to 5, but the channel a map stage creates still has the
hardcoded capacity 100 — `bufferCap` is never read when channels are
made, contradicting the documented behaviour of `WithBufferSize`. -/
theorem c6_buffer_capacity_ignored :
    ((Pipeline.New (T := Int) "w").WithBufferSize 5).bufferCap = 5
    ∧ (MapOperator.Process (fun n => n + 1)
        ({ cap := 5, msgs := [] } : Chan (Message Int))).cap = 100
    ∧ (MapOperator.Process (fun n => n + 1)
        ({ cap := 5, msgs := [] } : Chan (Message Int))).cap
        ≠ ((Pipeline.New (T := Int) "w").WithBufferSize 5).bufferCap := by
  refine ⟨rfl, rfl, ?_⟩
  intro h
  simp [MapOperator.Process, Pipeline.New, Pipeline.WithBufferSize] at h

/-- Every envelope in the list has a non-nil metadata map. -/
def metadataAll {T : Type} (l : List (Message T)) : Bool :=
  l.all fun m => m.Metadata.isSome

theorem metadataAll_mapLoop {T : Type} (fn : T → T) (l : List (Message T))
    (h : metadataAll l = true) : metadataAll (mapLoop fn l) = true := by
  induction l with
  | nil => rfl
  | cons m rest ih =>
    simp only [metadataAll, mapLoop, List.all_cons, Bool.and_eq_true] at h ⊢
    exact ⟨h.1, ih h.2⟩

theorem metadataAll_filterLoop {T : Type} (fn : T → Bool) (l : List (Message T))
    (h : metadataAll l = true) : metadataAll (filterLoop fn l) = true := by
  induction l with
  | nil => rfl
  | cons m rest ih =>
    simp only [metadataAll, List.all_cons, Bool.and_eq_true] at h
    by_cases hv : fn m.Value
    · simp only [filterLoop, hv, if_pos, metadataAll, List.all_cons,
        Bool.and_eq_true]
      exact ⟨h.1, ih h.2⟩
    · simp only [filterLoop, hv, if_neg, Bool.false_eq_true, ite_false]
      exact ih h.2

/-- C8: every shipped source creates envelopes with a non-nil metadata
map — the timer tick message and the HTTP poll success message carry one,
and every envelope of the channel-adapter source does — and the map and
filter operators preserve the invariant, so downstream stages may
annotate metadata without a nil check. -/
theorem c8_metadata_never_nil {T : Type} (generator : Unit → T) (now : Int)
    (feed : List T) (url : String) (pt : Int)
    (resp : Option (PollResponse T)) (fn : T → T) (pr : T → Bool)
    (inp : Chan (Message T)) (hin : metadataAll inp.msgs = true) :
    (CronSource.tickMessage generator now).Metadata.isSome = true
    ∧ metadataAll (ChannelSource.Stream feed).msgs = true
    ∧ (∀ m : Message T, HTTPSource.poll url pt resp = some m →
        m.Metadata.isSome = true)
    ∧ metadataAll (MapOperator.Process fn inp).msgs = true
    ∧ metadataAll (FilterOperator.Process pr inp).msgs = true := by
  refine ⟨rfl, ?_, ?_, metadataAll_mapLoop fn inp.msgs hin,
    metadataAll_filterLoop pr inp.msgs hin⟩
  · simp [ChannelSource.Stream, metadataAll, List.all_map, Function.comp]
  · intro m hm
    match resp with
    | none => exact absurd hm (by simp [HTTPSource.poll])
    | some r =>
      by_cases hst : r.status = 200
      · match hp : r.parsed with
        | none => exact absurd hm (by simp [HTTPSource.poll, hst, hp])
        | some v =>
          simp [HTTPSource.poll, hst, hp] at hm
          simp [← hm]
      · exact absurd hm (by simp [HTTPSource.poll, hst])

/-- Witness for C8 at concrete instances of every component. -/
theorem c8_metadata_never_nil_witness :
    (CronSource.tickMessage (fun _ => (2 : Int)) 9).Metadata.isSome = true
    ∧ metadataAll (ChannelSource.Stream [(4 : Int)]).msgs = true
    ∧ (∀ m : Message Int,
        HTTPSource.poll "http://u" 9
            (some { status := 200, parsed := some (4 : Int) })
          = some m → m.Metadata.isSome = true)
    ∧ metadataAll (MapOperator.Process (fun n => n + 1)
        ({ cap := 100, msgs := [] } : Chan (Message Int))).msgs = true
    ∧ metadataAll (FilterOperator.Process (fun _ => true)
        ({ cap := 100, msgs := [] } : Chan (Message Int))).msgs = true :=
  c8_metadata_never_nil (fun _ => (2 : Int)) 9 [(4 : Int)] "http://u" 9
    (some { status := 200, parsed := some (4 : Int) }) (fun n => n + 1)
    (fun _ => true) ({ cap := 100, msgs := [] } : Chan (Message Int)) rfl

/-!
The default JSON marshaler of the HTTP sink (`json.Marshal`, sink/http.go
lines 32-34) and the default JSON parser of the HTTP poll source
(`json.Unmarshal`, source/http.go lines 28-32) are Go standard-library
code, not part of this repository. Per the spec they form a
value-faithful encode/decode pair over the declared payload type; the
payload domain is modelled as JSON values, and marshalling as the
emission of the corresponding JSON token stream.
-/

/-- Modelled from the spec: the domain of JSON-representable payload
values handled by the default `encoding/json` marshaler/parser pair
(null, booleans, numbers, strings, arrays, objects). -/
inductive JValue where
  | null
  | bool (b : Bool)
  | num (n : Int)
  | str (s : String)
  | arr (items : List JValue)
  | obj (fields : List (String × JValue))

/-- Lexical tokens of a marshalled JSON document. -/
inductive JToken where
  | lbrace
  | rbrace
  | lbrack
  | rbrack
  | colon
  | comma
  | tnull
  | tbool (b : Bool)
  | tnum (n : Int)
  | tstr (s : String)
deriving DecidableEq

mutual
/-- Modelled from the spec: the HTTP sink's default JSON marshaler
(`json.Marshal`, Go stdlib, not in src), as the token stream of the
marshalled value: scalars as single tokens, arrays bracketed with
comma-separated items, objects braced with comma-separated
`key : value` fields. -/
def jsonMarshal : JValue → List JToken
  | .null => [JToken.tnull]
  | .bool b => [JToken.tbool b]
  | .num n => [JToken.tnum n]
  | .str s => [JToken.tstr s]
  | .arr items => JToken.lbrack :: (marshalItems items ++ [JToken.rbrack])
  | .obj fields => JToken.lbrace :: (marshalFields fields ++ [JToken.rbrace])

def marshalItems : List JValue → List JToken
  | [] => []
  | v :: vs => jsonMarshal v ++ marshalRest vs

def marshalRest : List JValue → List JToken
  | [] => []
  | v :: vs => JToken.comma :: (jsonMarshal v ++ marshalRest vs)

def marshalFields : List (String × JValue) → List JToken
  | [] => []
  | (k, v) :: fs =>
    JToken.tstr k :: JToken.colon :: (jsonMarshal v ++ marshalFieldsRest fs)

def marshalFieldsRest : List (String × JValue) → List JToken
  | [] => []
  | (k, v) :: fs =>
    JToken.comma :: JToken.tstr k :: JToken.colon ::
      (jsonMarshal v ++ marshalFieldsRest fs)
end

mutual
/-- Modelled from the spec: the HTTP poll source's default JSON parser
(`json.Unmarshal`, Go stdlib, not in src), as a fuelled recursive-descent
reader of the token stream; `none` is a decode failure. -/
def parseValue : Nat → List JToken → Option (JValue × List JToken)
  | 0, _ => none
  | fuel + 1, ts =>
    match ts with
    | JToken.tnull :: r => some (JValue.null, r)
    | JToken.tbool b :: r => some (JValue.bool b, r)
    | JToken.tnum n :: r => some (JValue.num n, r)
    | JToken.tstr s :: r => some (JValue.str s, r)
    | JToken.lbrack :: r =>
      match parseItems fuel r with
      | some (vs, r2) => some (JValue.arr vs, r2)
      | none => none
    | JToken.lbrace :: r =>
      match parseFields fuel r with
      | some (fs, r2) => some (JValue.obj fs, r2)
      | none => none
    | _ => none

def parseItems : Nat → List JToken → Option (List JValue × List JToken)
  | 0, _ => none
  | fuel + 1, ts =>
    match ts with
    | JToken.rbrack :: r => some ([], r)
    | ts =>
      match parseValue fuel ts with
      | some (v, r) =>
        match parseItemsRest fuel r with
        | some (vs, r2) => some (v :: vs, r2)
        | none => none
      | none => none

def parseItemsRest : Nat → List JToken → Option (List JValue × List JToken)
  | 0, _ => none
  | fuel + 1, ts =>
    match ts with
    | JToken.rbrack :: r => some ([], r)
    | JToken.comma :: r =>
      match parseValue fuel r with
      | some (v, r2) =>
        match parseItemsRest fuel r2 with
        | some (vs, r3) => some (v :: vs, r3)
        | none => none
      | none => none
    | _ => none

def parseFields : Nat → List JToken → Option (List (String × JValue) × List JToken)
  | 0, _ => none
  | fuel + 1, ts =>
    match ts with
    | JToken.rbrace :: r => some ([], r)
    | JToken.tstr k :: JToken.colon :: r =>
      match parseValue fuel r with
      | some (v, r2) =>
        match parseFieldsRest fuel r2 with
        | some (fs, r3) => some ((k, v) :: fs, r3)
        | none => none
      | none => none
    | _ => none

def parseFieldsRest : Nat → List JToken → Option (List (String × JValue) × List JToken)
  | 0, _ => none
  | fuel + 1, ts =>
    match ts with
    | JToken.rbrace :: r => some ([], r)
    | JToken.comma :: JToken.tstr k :: JToken.colon :: r =>
      match parseValue fuel r with
      | some (v, r2) =>
        match parseFieldsRest fuel r2 with
        | some (fs, r3) => some ((k, v) :: fs, r3)
        | none => none
      | none => none
    | _ => none
end

/-- Modelled from the spec: top-level decode of a whole marshalled
document — the parse must consume every token. The fuel bound
`length + 1` dominates the recursion depth of any successful parse. -/
def jsonUnmarshal (ts : List JToken) : Option JValue :=
  match parseValue (ts.length + 1) ts with
  | some (v, []) => some v
  | _ => none

theorem marshal_length_pos (v : JValue) : 1 ≤ (jsonMarshal v).length := by
  cases v <;> simp [jsonMarshal]

theorem parseItems_fallthrough (fuel : Nat) (v : JValue) (ts : List JToken) :
    parseItems (fuel + 1) (jsonMarshal v ++ ts) =
      match parseValue fuel (jsonMarshal v ++ ts) with
      | some (w, r) =>
        match parseItemsRest fuel r with
        | some (vs, r2) => some (w :: vs, r2)
        | none => none
      | none => none := by
  cases v <;> simp [jsonMarshal, parseItems]

theorem parse_marshal (fuel : Nat) :
    (∀ (v : JValue) (rest : List JToken),
        (jsonMarshal v).length + 1 ≤ fuel →
      parseValue fuel (jsonMarshal v ++ rest) = some (v, rest))
    ∧ (∀ (items : List JValue) (rest : List JToken),
        (marshalItems items).length + 2 ≤ fuel →
      parseItems fuel (marshalItems items ++ (JToken.rbrack :: rest))
        = some (items, rest))
    ∧ (∀ (items : List JValue) (rest : List JToken),
        (marshalRest items).length + 2 ≤ fuel →
      parseItemsRest fuel (marshalRest items ++ (JToken.rbrack :: rest))
        = some (items, rest))
    ∧ (∀ (fields : List (String × JValue)) (rest : List JToken),
        (marshalFields fields).length + 2 ≤ fuel →
      parseFields fuel (marshalFields fields ++ (JToken.rbrace :: rest))
        = some (fields, rest))
    ∧ (∀ (fields : List (String × JValue)) (rest : List JToken),
        (marshalFieldsRest fields).length + 2 ≤ fuel →
      parseFieldsRest fuel (marshalFieldsRest fields ++ (JToken.rbrace :: rest))
        = some (fields, rest)) := by
  induction fuel with
  | zero =>
    refine ⟨fun v rest h => absurd h (by omega),
      fun a rest h => absurd h (by omega),
      fun a rest h => absurd h (by omega),
      fun a rest h => absurd h (by omega),
      fun a rest h => absurd h (by omega)⟩
  | succ fuel ih =>
    obtain ⟨ihV, ihI, ihR, ihF, ihFR⟩ := ih
    refine ⟨?_, ?_, ?_, ?_, ?_⟩
    · intro v rest h
      cases v with
      | null => simp [jsonMarshal, parseValue]
      | bool b => simp [jsonMarshal, parseValue]
      | num n => simp [jsonMarshal, parseValue]
      | str s => simp [jsonMarshal, parseValue]
      | arr items =>
        have hi : (marshalItems items).length + 2 ≤ fuel := by
          simp [jsonMarshal] at h; omega
        have := ihI items rest hi
        simp [jsonMarshal, parseValue, List.append_assoc,
          List.singleton_append, this]
      | obj fields =>
        have hi : (marshalFields fields).length + 2 ≤ fuel := by
          simp [jsonMarshal] at h; omega
        have := ihF fields rest hi
        simp [jsonMarshal, parseValue, List.append_assoc,
          List.singleton_append, this]
    · intro items rest h
      cases items with
      | nil => simp [marshalItems, parseItems]
      | cons v vs =>
        have h1 : (jsonMarshal v).length + 1 ≤ fuel := by
          have := marshal_length_pos v
          simp [marshalItems] at h; omega
        have h2 : (marshalRest vs).length + 2 ≤ fuel := by
          have := marshal_length_pos v
          simp [marshalItems] at h; omega
        have heq : marshalItems (v :: vs) ++ (JToken.rbrack :: rest)
            = jsonMarshal v ++ (marshalRest vs ++ (JToken.rbrack :: rest)) := by
          simp [marshalItems, List.append_assoc]
        rw [heq, parseItems_fallthrough fuel v _,
          ihV v (marshalRest vs ++ (JToken.rbrack :: rest)) h1]
        simp [ihR vs rest h2]
    · intro items rest h
      cases items with
      | nil => simp [marshalRest, parseItemsRest]
      | cons v vs =>
        have h1 : (jsonMarshal v).length + 1 ≤ fuel := by
          simp [marshalRest] at h; omega
        have h2 : (marshalRest vs).length + 2 ≤ fuel := by
          have := marshal_length_pos v
          simp [marshalRest] at h; omega
        have := ihV v (marshalRest vs ++ (JToken.rbrack :: rest)) h1
        simp [marshalRest, parseItemsRest, List.append_assoc, this,
          ihR vs rest h2]
    · intro fields rest h
      cases fields with
      | nil => simp [marshalFields, parseFields]
      | cons f fs =>
        obtain ⟨k, v⟩ := f
        have h1 : (jsonMarshal v).length + 1 ≤ fuel := by
          simp [marshalFields] at h; omega
        have h2 : (marshalFieldsRest fs).length + 2 ≤ fuel := by
          have := marshal_length_pos v
          simp [marshalFields] at h; omega
        have := ihV v (marshalFieldsRest fs ++ (JToken.rbrace :: rest)) h1
        simp [marshalFields, parseFields, List.append_assoc, this,
          ihFR fs rest h2]
    · intro fields rest h
      cases fields with
      | nil => simp [marshalFieldsRest, parseFieldsRest]
      | cons f fs =>
        obtain ⟨k, v⟩ := f
        have h1 : (jsonMarshal v).length + 1 ≤ fuel := by
          simp [marshalFieldsRest] at h; omega
        have h2 : (marshalFieldsRest fs).length + 2 ≤ fuel := by
          have := marshal_length_pos v
          simp [marshalFieldsRest] at h; omega
        have := ihV v (marshalFieldsRest fs ++ (JToken.rbrace :: rest)) h1
        simp [marshalFieldsRest, parseFieldsRest, List.append_assoc, this,
          ihFR fs rest h2]

/-- C9: encoding a payload value with the HTTP sink's default JSON
marshaler and decoding it with the HTTP poll source's default JSON parser
yields exactly the original value, for every JSON-representable payload
value. -/
theorem c9_json_roundtrip (v : JValue) :
    jsonUnmarshal (jsonMarshal v) = some v := by
  have h := (parse_marshal ((jsonMarshal v).length + 1)).1 v [] (le_refl _)
  rw [List.append_nil] at h
  simp [jsonUnmarshal, h]

end StreamPipe
